import Mathlib

/-!
Verification of the natural-language specification of SeqBuddy.py
(flopezo/BuddySuite) against a shallow embedding of its code.

Records, features and locations follow BioPython's data model as used by
the source: a feature location is either a simple (start, end, strand)
triple or a compound location made of simple parts plus an operator
string.  Python integers are modelled as Int, residue strings as
List Char, Python float arithmetic as exact rationals, and functions that
can raise as Except over an error-kind type.
-/

/-- Alphabet classification used by SeqBuddy (IUPAC.ambiguous_dna,
IUPAC.ambiguous_rna, IUPAC.protein). -/
inductive Alpha where
  | dna
  | rna
  | protein
deriving DecidableEq, Repr

/-- A simple feature location: BioPython FeatureLocation(start, end, strand).
BioPython's strand may be None; the strand-dependent operations below are
modelled on integer strands (a None strand would raise in the source's
strand arithmetic). -/
structure FeatureLoc where
  start : Int
  stop : Int
  strand : Int
deriving DecidableEq, Repr

/-- A feature location: either a FeatureLocation or a CompoundLocation
(list of simple parts plus an operator string such as "join"). -/
inductive Location where
  | simple : FeatureLoc → Location
  | compound : List FeatureLoc → String → Location
deriving DecidableEq, Repr

/-- A sequence record: identifier, residue string, annotated features. -/
structure SRecord where
  rid : String
  seq : List Char
  features : List Location
deriving DecidableEq, Repr

/-- The SeqBuddy collection wrapper: guessed alphabet plus record list. -/
structure SeqBuddy where
  alpha : Alpha
  records : List SRecord
deriving DecidableEq, Repr

/-- Standard Python exception kinds raised by the functions under study. -/
inductive PyError where
  | typeError
  | attributeError
deriving DecidableEq, Repr

/-- String-to-char-list shorthand used to write residue literals. -/
def strL (s : String) : List Char := s.toList

/-- Clamp of a coordinate into [0, bound], written exactly as the two
successive conditional reassignments in _shift_feature. -/
def clampPos (x bound : Int) : Int :=
  let y := if 0 ≤ x then x else 0
  if y ≤ bound then y else bound

/-- Body of _shift_feature's FeatureLocation branch: start and end are
shifted then clamped into [0, full_seq_len]; the strand is kept. -/
def shiftPart (f : FeatureLoc) (shift bound : Int) : FeatureLoc :=
  ⟨clampPos (f.start + shift) bound, clampPos (f.stop + shift) bound, f.strand⟩

/-- SeqBuddy._shift_feature: simple locations are shifted and clamped;
compound locations recurse into each part (each part is a simple
FeatureLocation) and keep the operator. -/
def shift_feature (loc : Location) (shift bound : Int) : Location :=
  match loc with
  | .simple f => .simple (shiftPart f shift bound)
  | .compound parts op => .compound (parts.map (fun p => shiftPart p shift bound)) op

/-- Body of _feature_rc's FeatureLocation branch: _end = seq_len - end,
_shift = _end - start, then _shift_feature with that shift, then
strand multiplied by -1. -/
def rcPart (f : FeatureLoc) (seqLen : Int) : FeatureLoc :=
  let sh := (seqLen - f.stop) - f.start
  let g := shiftPart f sh seqLen
  ⟨g.start, g.stop, -g.strand⟩

/-- SeqBuddy._feature_rc: reverse-complement transform of a feature
location, recursing through compound locations part by part. -/
def feature_rc (loc : Location) (seqLen : Int) : Location :=
  match loc with
  | .simple f => .simple (rcPart f seqLen)
  | .compound parts op => .compound (parts.map (fun p => rcPart p seqLen)) op

/-- Ambiguous-DNA complement table of Bio.Seq (third-party), upper and
lower case; characters outside the table are left unchanged by
str.translate. -/
def dnaCompPairs : List (Char × Char) :=
  [('A', 'T'), ('C', 'G'), ('G', 'C'), ('T', 'A'), ('M', 'K'), ('R', 'Y'),
   ('W', 'W'), ('S', 'S'), ('Y', 'R'), ('K', 'M'), ('V', 'B'), ('H', 'D'),
   ('D', 'H'), ('B', 'V'), ('X', 'X'), ('N', 'N'),
   ('a', 't'), ('c', 'g'), ('g', 'c'), ('t', 'a'), ('m', 'k'), ('r', 'y'),
   ('w', 'w'), ('s', 's'), ('y', 'r'), ('k', 'm'), ('v', 'b'), ('h', 'd'),
   ('d', 'h'), ('b', 'v'), ('x', 'x'), ('n', 'n')]

/-- Ambiguous-RNA complement table of Bio.Seq (third-party). -/
def rnaCompPairs : List (Char × Char) :=
  [('A', 'U'), ('C', 'G'), ('G', 'C'), ('U', 'A'), ('M', 'K'), ('R', 'Y'),
   ('W', 'W'), ('S', 'S'), ('Y', 'R'), ('K', 'M'), ('V', 'B'), ('H', 'D'),
   ('D', 'H'), ('B', 'V'), ('X', 'X'), ('N', 'N'),
   ('a', 'u'), ('c', 'g'), ('g', 'c'), ('u', 'a'), ('m', 'k'), ('r', 'y'),
   ('w', 'w'), ('s', 's'), ('y', 'r'), ('k', 'm'), ('v', 'b'), ('h', 'd'),
   ('d', 'h'), ('b', 'v'), ('x', 'x'), ('n', 'n')]

/-- Complement table selected by the sequence's alphabet in Bio.Seq.
The protein case is guarded before any complement in the source, so its
table is never consulted; it is the empty (identity) table here. -/
def compTable : Alpha → List (Char × Char)
  | .dna => dnaCompPairs
  | .rna => rnaCompPairs
  | .protein => []

/-- Per-character complement: table lookup, identity off the table
(str.translate semantics). -/
def complementChar (pairs : List (Char × Char)) (c : Char) : Char :=
  (pairs.lookup c).getD c

/-- Bio.Seq reverse_complement: complement every character, then reverse. -/
def rcSeq (alpha : Alpha) (s : List Char) : List Char :=
  (s.map (complementChar (compTable alpha))).reverse

/-- Per-record body of SeqBuddy.reverse_complement: the residue string is
reverse-complemented and every feature passes through _feature_rc with the
new sequence length. -/
def rcRecord (alpha : Alpha) (r : SRecord) : SRecord :=
  let s := rcSeq alpha r.seq
  { r with seq := s, features := r.features.map (fun f => feature_rc f (s.length : Int)) }

/-- SeqBuddy.reverse_complement: protein collections raise TypeError,
otherwise each record is reverse-complemented in place. -/
def reverse_complement (sb : SeqBuddy) : Except PyError SeqBuddy :=
  if sb.alpha = .protein then .error .typeError
  else .ok { sb with records := sb.records.map (rcRecord sb.alpha) }

/-- SeqBuddy.complement: protein collections raise TypeError, otherwise
every residue is complemented. -/
def complement (sb : SeqBuddy) : Except PyError SeqBuddy :=
  if sb.alpha = .protein then .error .typeError
  else
    .ok { sb with
          records := sb.records.map
            (fun r => { r with seq := r.seq.map (complementChar (compTable sb.alpha)) }) }

/-- SeqBuddy.select_frame: protein collections raise TypeError; otherwise
each feature is shifted by (frame - 1) * -1 with the record's original
length as bound, and the first frame - 1 residues are dropped. -/
def select_frame (sb : SeqBuddy) (frame : Nat) : Except PyError SeqBuddy :=
  if sb.alpha = .protein then .error .typeError
  else
    .ok { sb with
          records := sb.records.map
            (fun r =>
              { r with
                features := r.features.map
                  (fun f => shift_feature f (1 - (frame : Int)) (r.seq.length : Int)),
                seq := r.seq.drop (frame - 1) }) }

/-- A simple part lies within [0, L] when both its start and its end do. -/
def partInBounds (L : Int) (f : FeatureLoc) : Prop :=
  0 ≤ f.start ∧ f.start ≤ L ∧ 0 ≤ f.stop ∧ f.stop ≤ L

instance (L : Int) (f : FeatureLoc) : Decidable (partInBounds L f) := by
  unfold partInBounds; infer_instance

/-- Every simple part of a location lies within [0, L]. -/
def locWithin (L : Int) (loc : Location) : Prop :=
  match loc with
  | .simple f => partInBounds L f
  | .compound ps _ => ∀ p ∈ ps, partInBounds L p

instance (L : Int) (loc : Location) : Decidable (locWithin L loc) := by
  unfold locWithin; cases loc <;> infer_instance

/-- Restoration predicate for the double reverse-complement: the location
obtained after two passes agrees with the original on every part that lay
within [0, L] (operator and part count always agree). -/
def locRestored (L : Int) (orig twice : Location) : Prop :=
  match orig, twice with
  | .simple f, .simple g => partInBounds L f → g = f
  | .compound ps op, .compound qs op2 =>
      op2 = op ∧ List.Forall₂ (fun p q => partInBounds L p → q = p) ps qs
  | _, _ => False

section Lemmas

lemma clampPos_of_bounds {x L : Int} (h0 : 0 ≤ x) (h1 : x ≤ L) : clampPos x L = x := by
  simp [clampPos, h0, h1]

lemma clampPos_mem {x L : Int} (hL : 0 ≤ L) :
    0 ≤ clampPos x L ∧ clampPos x L ≤ L := by
  simp only [clampPos]
  split <;> try split
  all_goals omega

lemma lookup_mem {α β : Type} [BEq α] [LawfulBEq α] :
    ∀ (l : List (α × β)) (a : α) (b : β), l.lookup a = some b → (a, b) ∈ l := by
  intro l
  induction l with
  | nil => intro a b h; simp [List.lookup] at h
  | cons p rest ih =>
      intro a b h
      rw [List.lookup] at h
      cases hab : (a == p.1) with
      | true =>
          simp only [hab] at h
          have hb : p.2 = b := by injection h
          have ha : a = p.1 := eq_of_beq hab
          subst hb
          subst ha
          exact List.mem_cons_self _ _
      | false =>
          simp only [hab] at h
          exact List.mem_cons_of_mem _ (ih a b h)

lemma complementChar_invol {pairs : List (Char × Char)}
    (hbij : ∀ p ∈ pairs, pairs.lookup p.2 = some p.1) (c : Char) :
    complementChar pairs (complementChar pairs c) = c := by
  unfold complementChar
  cases h : pairs.lookup c with
  | none => simp [h]
  | some v =>
      have hmem : (c, v) ∈ pairs := lookup_mem pairs c v h
      have := hbij (c, v) hmem
      simp [h, this]

lemma compTable_bij (alpha : Alpha) :
    ∀ p ∈ compTable alpha, (compTable alpha).lookup p.2 = some p.1 := by
  cases alpha <;> decide

lemma rcSeq_length (alpha : Alpha) (s : List Char) : (rcSeq alpha s).length = s.length := by
  simp [rcSeq]

lemma rcSeq_rcSeq (alpha : Alpha) (s : List Char) : rcSeq alpha (rcSeq alpha s) = s := by
  unfold rcSeq
  rw [List.map_reverse, List.reverse_reverse, List.map_map]
  have : (complementChar (compTable alpha)) ∘ (complementChar (compTable alpha)) = id := by
    funext c
    exact complementChar_invol (compTable_bij alpha) c
  rw [this, List.map_id]

lemma rcPart_eval (f : FeatureLoc) (L : Int) :
    rcPart f L = ⟨clampPos (L - f.stop) L, clampPos (L - f.start) L, -f.strand⟩ := by
  unfold rcPart shiftPart
  have h1 : f.start + ((L - f.stop) - f.start) = L - f.stop := by ring
  have h2 : f.stop + ((L - f.stop) - f.start) = L - f.start := by ring
  simp [h1, h2]

lemma rcPart_rcPart {f : FeatureLoc} {L : Int} (h : partInBounds L f) :
    rcPart (rcPart f L) L = f := by
  obtain ⟨h1, h2, h3, h4⟩ := h
  rw [rcPart_eval, rcPart_eval]
  have e1 : clampPos (L - f.stop) L = L - f.stop := clampPos_of_bounds (by omega) (by omega)
  have e2 : clampPos (L - f.start) L = L - f.start := clampPos_of_bounds (by omega) (by omega)
  simp only [e1, e2]
  have e3 : L - (L - f.start) = f.start := by ring
  have e4 : L - (L - f.stop) = f.stop := by ring
  rw [e3, e4, clampPos_of_bounds h1 h2, clampPos_of_bounds h3 h4]
  simp

lemma forall₂_map_right {α β : Type} (P : α → β → Prop) (g : α → β) (l : List α)
    (h : ∀ a ∈ l, P a (g a)) : List.Forall₂ P l (l.map g) := by
  induction l with
  | nil => simp
  | cons x xs ih =>
      simp only [List.map_cons]
      exact List.Forall₂.cons (h x (by simp)) (ih (fun a ha => h a (by simp [ha])))

lemma forall₂_map_left {α β : Type} (P : β → α → Prop) (g : α → β) (l : List α)
    (h : ∀ a ∈ l, P (g a) a) : List.Forall₂ P (l.map g) l := by
  induction l with
  | nil => simp
  | cons x xs ih =>
      simp only [List.map_cons]
      exact List.Forall₂.cons (h x (by simp)) (ih (fun a ha => h a (by simp [ha])))

lemma feature_rc_rc (loc : Location) (L : Int) :
    locRestored L loc (feature_rc (feature_rc loc L) L) := by
  cases loc with
  | simple f =>
      show partInBounds L f → rcPart (rcPart f L) L = f
      intro h
      exact rcPart_rcPart h
  | compound ps op =>
      show _ ∧ List.Forall₂ _ ps (((ps.map _).map _))
      rw [List.map_map]
      refine ⟨rfl, ?_⟩
      exact forall₂_map_right _ _ ps (fun p _ => fun h => rcPart_rcPart h)

end Lemmas

/-- C7: _shift_feature clamps every coordinate of the returned location
into [0, full_seq_len], for simple locations and recursively for every
part of a compound location, whenever full_seq_len is non-negative.
Operations shifting features through this helper (select_frame,
concat_seqs, the reverse-complement path) therefore keep feature
coordinates inside the bound they pass. -/
theorem shift_feature_clamps (loc : Location) (shift L : Int) (hL : 0 ≤ L) :
    locWithin L (shift_feature loc shift L) := by
  cases loc with
  | simple f =>
      simp only [shift_feature, locWithin, shiftPart, partInBounds]
      have h1 := clampPos_mem (x := f.start + shift) hL
      have h2 := clampPos_mem (x := f.stop + shift) hL
      exact ⟨h1.1, h1.2, h2.1, h2.2⟩
  | compound ps op =>
      simp only [shift_feature, locWithin]
      intro p hp
      simp only [List.mem_map] at hp
      obtain ⟨q, _, rfl⟩ := hp
      have h1 := clampPos_mem (x := q.start + shift) hL
      have h2 := clampPos_mem (x := q.stop + shift) hL
      exact ⟨h1.1, h1.2, h2.1, h2.2⟩

/-- Witness for shift_feature_clamps at a concrete compound location,
shift and bound. -/
theorem shift_feature_clamps_witness :
    locWithin 10 (shift_feature (.compound [⟨-4, 7, 1⟩, ⟨3, 22, -1⟩] "join") 2 10) :=
  shift_feature_clamps (.compound [⟨-4, 7, 1⟩, ⟨3, 22, -1⟩] "join") 2 10 (by decide)

/-- C1: on a nucleotide-alphabet collection, reverse_complement applied
twice succeeds and returns every record to its original residue string;
every feature part whose coordinates lay within [0, sequence length]
regains its original start, end and strand, including each part of a
compound location (whose operator is also preserved). -/
theorem reverse_complement_involution (sb : SeqBuddy) (h : sb.alpha ≠ .protein) :
    ∃ sb2, (reverse_complement sb).bind reverse_complement = .ok sb2 ∧
      sb2.alpha = sb.alpha ∧
      List.Forall₂ (fun r r2 =>
        r2.seq = r.seq ∧
        List.Forall₂ (locRestored ((r.seq.length : Int))) r.features r2.features)
        sb.records sb2.records := by
  refine ⟨{ sb with records := (sb.records.map (rcRecord sb.alpha)).map (rcRecord sb.alpha) }, ?_, rfl, ?_⟩
  · have h1 : reverse_complement sb = .ok { sb with records := sb.records.map (rcRecord sb.alpha) } := by
      rw [reverse_complement, if_neg h]
    rw [h1]
    show reverse_complement { sb with records := sb.records.map (rcRecord sb.alpha) } = _
    rw [reverse_complement, if_neg h]
  · rw [List.map_map]
    apply forall₂_map_right
    intro r _
    constructor
    · show rcSeq sb.alpha (rcRecord sb.alpha r).seq = r.seq
      simp [rcRecord, rcSeq_rcSeq]
    · show List.Forall₂ _ r.features (rcRecord sb.alpha (rcRecord sb.alpha r)).features
      simp only [rcRecord, List.map_map, rcSeq_length]
      apply forall₂_map_right
      intro f _
      exact feature_rc_rc f _

/-- Witness for reverse_complement_involution at a concrete DNA collection
with a simple and a compound feature. -/
theorem reverse_complement_involution_witness :
    ∃ sb2, (reverse_complement (SeqBuddy.mk .dna [SRecord.mk "r1" (strL "ACGT")
        [.simple ⟨1, 3, 1⟩, .compound [⟨0, 2, 1⟩, ⟨2, 4, -1⟩] "join"]])).bind
        reverse_complement = .ok sb2 ∧
      sb2.alpha = Alpha.dna ∧
      List.Forall₂ (fun (r r2 : SRecord) =>
        r2.seq = r.seq ∧
        List.Forall₂ (locRestored ((r.seq.length : Int))) r.features r2.features)
        [SRecord.mk "r1" (strL "ACGT") [.simple ⟨1, 3, 1⟩, .compound [⟨0, 2, 1⟩, ⟨2, 4, -1⟩] "join"]]
        sb2.records :=
  reverse_complement_involution
    (SeqBuddy.mk .dna [SRecord.mk "r1" (strL "ACGT")
      [.simple ⟨1, 3, 1⟩, .compound [⟨0, 2, 1⟩, ⟨2, 4, -1⟩] "join"]])
    (by decide)

/-- Inner _feature_map of map_features_dna2prot: start and end are divided
by three and floored; the new FeatureLocation is created without strand
(BioPython's default None strand is modelled as 0).  Compound locations
recurse into each part and keep the operator. -/
def map_features_dna2prot_loc : Location → Location
  | .simple f => .simple ⟨f.start.fdiv 3, f.stop.fdiv 3, 0⟩
  | .compound ps op =>
      .compound (ps.map (fun p => FeatureLoc.mk (p.start.fdiv 3) (p.stop.fdiv 3) 0)) op

/-- Overall start of a BioPython CompoundLocation: the minimum over parts
(0 for the empty list, which BioPython's constructor rejects anyway). -/
def partsMinStart : List FeatureLoc → Int
  | [] => 0
  | p :: rest => rest.foldl (fun m q => min m q.start) p.start

/-- Overall end of a BioPython CompoundLocation: the maximum over parts. -/
def partsMaxEnd : List FeatureLoc → Int
  | [] => 0
  | p :: rest => rest.foldl (fun m q => max m q.stop) p.stop

/-- Inner _feature_map of map_features_prot2dna.  The FeatureLocation
branch of the source reads feature.location.start and feature.location.end
from the enclosing loop variable (the top-level feature being mapped)
instead of the parameter _feature.  For a top-level simple location the
two objects coincide, so start and end are multiplied by three; for a
compound location every recursive per-part call instead uses the parent
compound location's overall start (minimum over parts) and overall end
(maximum over parts), each multiplied by three, because the parent's
location attribute is only replaced after the loop over parts finishes. -/
def map_features_prot2dna_loc : Location → Location
  | .simple f => .simple ⟨f.start * 3, f.stop * 3, 0⟩
  | .compound ps op =>
      .compound (ps.map (fun _ => FeatureLoc.mk (partsMinStart ps * 3) (partsMaxEnd ps * 3) 0)) op

/-- C2 (code bug): the DNA→protein→DNA feature-location round trip does
not restore the parts of a compound location even at 3-aligned
coordinates.  At the compound location with parts (0,3) and (9,12), the
protein→DNA mapper rescales both parts to the parent compound's overall
bounds (0,12), because its inner _feature_map reads the enclosing loop
variable feature instead of its parameter _feature. -/
theorem map_features_prot2dna_compound_bug :
    map_features_prot2dna_loc (map_features_dna2prot_loc
        (.compound [⟨0, 3, 0⟩, ⟨9, 12, 0⟩] "join"))
      = .compound [⟨0, 12, 0⟩, ⟨0, 12, 0⟩] "join" ∧
    Location.compound [⟨0, 12, 0⟩, ⟨0, 12, 0⟩] "join"
      ≠ Location.compound [⟨0, 3, 0⟩, ⟨9, 12, 0⟩] "join" := by
  exact ⟨rfl, by decide⟩

/-- Characters removed by guess_alphabet's re.sub("[NX\-?]", "", ...)
before sampling (upper-case N and X only, plus gap and question mark). -/
def stripGapChars (s : List Char) : List Char :=
  s.filter (fun c => ¬(c = 'N' ∨ c = 'X' ∨ c = '-' ∨ c = '?'))

/-- Upper-casing of a residue string (str.upper). -/
def upperStr (s : List Char) : List Char := s.map Char.toUpper

/-- The sampling loop of guess_alphabet: records are concatenated after
stripping, upper-casing the accumulator each iteration, and the loop
breaks once more than 1000 characters have been accumulated. -/
def sampleResidues : List (List Char) → List Char → List Char
  | [], acc => acc
  | r :: rest, acc =>
      if 1000 < acc.length then acc
      else sampleResidues rest (upperStr (acc ++ stripGapChars r))

/-- Count of A, G, T, C and U characters used for the percent_dna ratio. -/
def countNuc (s : List Char) : Nat :=
  s.count 'A' + s.count 'G' + s.count 'T' + s.count 'C' + s.count 'U'

/-- SeqBuddy.guess_alphabet on the records' residue strings.  Python float
division and the 0.95 / 0.05 literals are modelled as exact rationals. -/
def guess_alphabet (recs : List (List Char)) : Option Alpha :=
  let s := sampleResidues recs []
  if s.length = 0 then none
  else
    if (95 : ℚ) / 100 < (countNuc s : ℚ) / (s.length : ℚ) then
      if (5 : ℚ) / 100 < (s.count 'U' : ℚ) / (s.length : ℚ) then some .rna else some .dna
    else some .protein

lemma percent95_lt_iff (c n : Nat) (hn : 0 < n) :
    ((95 : ℚ) / 100 < (c : ℚ) / (n : ℚ)) ↔ 95 * n < 100 * c := by
  have hn' : (0 : ℚ) < (n : ℚ) := by exact_mod_cast hn
  rw [div_lt_div_iff₀ (by norm_num) hn']
  constructor
  · intro h
    have h2 : ((95 * n : Nat) : ℚ) < ((100 * c : Nat) : ℚ) := by push_cast; linarith
    exact_mod_cast h2
  · intro h
    have h2 : ((95 * n : Nat) : ℚ) < ((100 * c : Nat) : ℚ) := by exact_mod_cast h
    push_cast at h2
    linarith

lemma percent5_lt_iff (c n : Nat) (hn : 0 < n) :
    ((5 : ℚ) / 100 < (c : ℚ) / (n : ℚ)) ↔ 5 * n < 100 * c := by
  have hn' : (0 : ℚ) < (n : ℚ) := by exact_mod_cast hn
  rw [div_lt_div_iff₀ (by norm_num) hn']
  constructor
  · intro h
    have h2 : ((5 * n : Nat) : ℚ) < ((100 * c : Nat) : ℚ) := by push_cast; linarith
    exact_mod_cast h2
  · intro h
    have h2 : ((5 * n : Nat) : ℚ) < ((100 * c : Nat) : ℚ) := by exact_mod_cast h
    push_cast at h2
    linarith

/-- C4: guess_alphabet is a deterministic function of the records' residue
strings with exactly the claimed threshold behaviour: on the sampled
string (characters N, X, -, ? removed, then upper-cased, accumulated until
more than 1000 characters), an empty sample gives None; a strictly more
than 95 percent A/C/G/T/U sample gives a nucleic alphabet, RNA when the U
fraction strictly exceeds 5 percent and DNA otherwise; anything else gives
protein. -/
theorem guess_alphabet_characterization (recs : List (List Char)) :
    guess_alphabet recs =
      (if (sampleResidues recs []).length = 0 then none
       else if 95 * (sampleResidues recs []).length < 100 * countNuc (sampleResidues recs []) then
         (if 5 * (sampleResidues recs []).length < 100 * (sampleResidues recs []).count 'U' then
            some Alpha.rna
          else some Alpha.dna)
       else some Alpha.protein) := by
  unfold guess_alphabet
  by_cases h0 : (sampleResidues recs []).length = 0
  · simp [h0]
  · have hn : 0 < (sampleResidues recs []).length := Nat.pos_of_ne_zero h0
    simp only [if_neg h0,
      percent95_lt_iff (countNuc (sampleResidues recs [])) _ hn,
      percent5_lt_iff ((sampleResidues recs []).count 'U') _ hn]

/-- The fixed parser priority list tried by guess_format. -/
def possible_formats : List String :=
  ["phylip-relaxed", "stockholm", "fasta", "gb", "fastq", "nexus"]

/-- Outcome of guess_format on a readable handle: sys.exit on empty input,
the first successfully parsing format, or None. -/
inductive FormatGuess where
  | exited
  | found : String → FormatGuess
  | undetermined
deriving DecidableEq, Repr

/-- SeqBuddy.guess_format on a readable handle, abstracted over the
third-party parser: parses f is true exactly when next(SeqIO.parse(handle, f))
returns a record that tests true (StopIteration and ValueError are the
caught failure modes, and a falsy first record falls through to the next
format).  An empty handle calls sys.exit before any parsing. -/
def guess_format (contents : String) (parses : String → Bool) : FormatGuess :=
  if contents = "" then .exited
  else
    match possible_formats.find? parses with
    | some f => .found f
    | none => .undetermined

/-- First format of a list accepted by the parser predicate, written as
the claim states it: try each candidate in order, return the first that
yields a record, None when none does. -/
def firstParsing (parses : String → Bool) : List String → Option String
  | [] => none
  | f :: rest => if parses f then some f else firstParsing parses rest

lemma find?_eq_firstParsing (p : String → Bool) :
    ∀ l : List String, l.find? p = firstParsing p l := by
  intro l
  induction l with
  | nil => rfl
  | cons x xs ih =>
      rw [List.find?]
      unfold firstParsing
      cases hx : p x <;> simp [hx, ih]

/-- C5 (counterexample): on an empty readable handle guess_format does not
return None — no candidate parser yields a record there, yet the function
terminates the process (sys.exit) instead. -/
theorem guess_format_empty_input_exits :
    guess_format "" (fun _ => false) = FormatGuess.exited ∧
      guess_format "" (fun _ => false) ≠ FormatGuess.undetermined := by
  exact ⟨rfl, by decide⟩

/-- C5 (amended): on every non-empty readable handle, guess_format tries
the candidate parsers in the fixed order phylip-relaxed, stockholm, fasta,
gb, fastq, nexus and returns the first format for which parsing yields at
least one record, and None when none does; an empty handle instead
terminates the process. -/
theorem guess_format_first_priority (contents : String) (parses : String → Bool)
    (h : contents ≠ "") :
    guess_format contents parses =
      (match firstParsing parses possible_formats with
       | some f => FormatGuess.found f
       | none => FormatGuess.undetermined) := by
  rw [guess_format, if_neg h, find?_eq_firstParsing]

/-- Witness for guess_format_first_priority on a concrete non-empty handle
whose contents only the fasta parser accepts. -/
theorem guess_format_first_priority_witness :
    guess_format ">x\nACGT\n" (fun f => f == "fasta") =
      (match firstParsing (fun f => f == "fasta") possible_formats with
       | some f => FormatGuess.found f
       | none => FormatGuess.undetermined) :=
  guess_format_first_priority ">x\nACGT\n" (fun f => f == "fasta") (by decide)

/-- Start codons of the standard codon table for ambiguous DNA
(Bio.Data.CodonTable.ambiguous_dna_by_id[1], third-party): TTG, CTG, ATG
plus every ambiguous codon whose expansions are all start codons. -/
def startCodonsAmbiguous : List (List Char) :=
  [strL "TTG", strL "CTG", strL "ATG", strL "YTG", strL "MTG", strL "WTG", strL "HTG"]

/-- Stop codons of the standard codon table for ambiguous DNA
(third-party): TAA, TAG, TGA plus the ambiguous codons TAR and TRA whose
expansions are all stops. -/
def stopCodonsAmbiguous : List (List Char) :=
  [strL "TAA", strL "TAG", strL "TGA", strL "TAR", strL "TRA"]

/-- Valid nucleotide letters of the ambiguous-DNA alphabet (third-party
IUPAC.ambiguous_dna.letters). -/
def validNucLetters : List Char := strL "GATCRYWSMKHBVDN"

/-- The literal stop codons substituted by translate_cds's internal-stop
patch (upper-cased comparison against this list in the source). -/
def literalStopCodons : List (List Char) :=
  [strL "TGA", strL "TAG", strL "TAA"]

/-- The five third-party translation error classes handled by the repair
loop of translate_cds, carrying the codon text the message reports. -/
inductive TransErr where
  | notMultiple : Nat → TransErr
  | badStart : List Char → TransErr
  | badStop : List Char → TransErr
  | invalidCodon : List Char → TransErr
  | internalStop : TransErr
deriving DecidableEq, Repr

/-- Python sequence[-3:]: the last three characters, or the whole string
when it is shorter than three. -/
def pyLast3 (s : List Char) : List Char := s.drop (s.length - 3)

/-- The codon (three characters) starting at character position j. -/
def codonAtPos (s : List Char) (j : Nat) : List Char := (s.drop j).take 3

/-- Number of iterations of Python's range(3, n - 3, 3): the count of
internal codon positions scanned by the cds translation loop. -/
def internalCount (n : Nat) : Nat := if n ≤ 6 then 0 else (n - 4) / 3

/-- Error scan of one internal codon, as in the cds translation loop of
Bio.Seq._translate_str (third-party): a forward-table lookup failure is an
extra in-frame stop when the codon is in the (ambiguous) stop list, a
possible-stop placeholder when all its letters are valid nucleotide
letters, and an invalid-codon error otherwise.  Stop codons never resolve
in the forward table, and codons with invalid letters never do either, so
checking the stop list first is error-equivalent to the source order. -/
def scanCodon (c : List Char) : Option TransErr :=
  if c ∈ stopCodonsAmbiguous then some .internalStop
  else if c.all (fun ch => ch ∈ validNucLetters) then none
  else some (.invalidCodon c)

/-- Upper-cased codon membership check used by the start/stop codon tests
(str.upper applied before the membership test in the source). -/
def translateCheck (s : List Char) : Option TransErr :=
  if upperStr (s.take 3) ∉ startCodonsAmbiguous then some (.badStart (s.take 3))
  else if s.length % 3 ≠ 0 then some (.notMultiple s.length)
  else if upperStr (pyLast3 s) ∉ stopCodonsAmbiguous then some (.badStop (pyLast3 s))
  else (List.range (internalCount s.length)).findSome?
    (fun k => scanCodon (codonAtPos s (3 + 3 * k)))

/-- ASCII letter test matching the regex class [A-Za-z]. -/
def isAsciiLetter (c : Char) : Bool :=
  ('A' ≤ c && c ≤ 'Z') || ('a' ≤ c && c ≤ 'z')

/-- A reported codon matches the repair loop's message regexes only when
it is exactly three ASCII letters. -/
def isAlpha3 (c : List Char) : Bool :=
  c.length == 3 && c.all isAsciiLetter

/-- First-occurrence substring replacement, modelling
re.sub(codon, "NNN", sequence, count=1) for a letters-only pattern. -/
def replaceFirst (pat rep : List Char) : List Char → List Char
  | [] => []
  | ch :: rest =>
      if pat.isPrefixOf (ch :: rest) then rep ++ (ch :: rest).drop pat.length
      else ch :: replaceFirst pat rep rest

/-- Python round(n / 3) under banker's rounding: the fractional part of
n / 3 is 0, .33... or .66..., so only the remainder-2 case rounds up. -/
def pyRound3 (n : Nat) : Nat := if n % 3 = 2 then n / 3 + 1 else n / 3

/-- Replacement of the codon starting at character position j by NNN. -/
def replaceCodonAt (s : List Char) (j : Nat) : List Char :=
  s.take j ++ strL "NNN" ++ s.drop (j + 3)

/-- The internal-stop patch of translate_cds: scan codon indices
0 .. round(len/3) - 2 over the current sequence and replace every codon
whose upper-case form is TGA, TAG or TAA by NNN. -/
def fixInternalStops (s : List Char) : List Char :=
  (List.range (pyRound3 s.length - 1)).foldl
    (fun acc k =>
      if upperStr (codonAtPos acc (3 * k)) ∈ literalStopCodons then replaceCodonAt acc (3 * k)
      else acc)
    s

/-- One patch application of the repair loop of translate_cds, selected by
the error message: trim to a multiple of three, replace the first codon by
ATG, append TGA, substitute the reported invalid codon by NNN once, or
substitute internal literal stop codons by NNN.  none means the message
matches no patch pattern and the loop breaks. -/
def applyPatch (s : List Char) : TransErr → Option (List Char)
  | .notMultiple _ => some (s.take (s.length - s.length % 3))
  | .badStart c => if isAlpha3 c then some (strL "ATG" ++ s.drop 3) else none
  | .badStop c => if isAlpha3 c then some (s ++ strL "TGA") else none
  | .invalidCodon c => if isAlpha3 c then some (replaceFirst c (strL "NNN") s) else none
  | .internalStop => some (fixInternalStops s)

/-- One iteration of the while loop in translate_cds: a successful
translation or an unmatched message exits the loop (none); a matched
message patches the working sequence and retries (some). -/
def repairStep (s : List Char) : Option (List Char) :=
  match translateCheck s with
  | none => none
  | some e => applyPatch s e

/-- Fuel-bounded run of the repair loop: some s when the loop exits within
the given number of iterations with working sequence s, none when it is
still looping after exhausting the fuel. -/
def repairRun : Nat → List Char → Option (List Char)
  | 0, _ => none
  | n + 1, s =>
      match repairStep s with
      | none => some s
      | some s2 => repairRun n s2

lemma repairStep_tar_fixpoint :
    repairStep (strL "ATGTARTGA") = some (strL "ATGTARTGA") := by
  decide

/-- C3 (code bug): the repair loop of translate_cds does not terminate on
every input record.  On the residue string ATGTARTGA (a valid ambiguous
DNA sequence, for instance inside a DNA collection), the cds translation
raises the extra-in-frame-stop error for the ambiguous stop codon TAR,
but the internal-stop patch only substitutes the literal codons TGA, TAG
and TAA, so the sequence is left unchanged and the loop retries forever:
the run never exits, whatever fuel it is given. -/
theorem translate_cds_repair_diverges (n : Nat) :
    repairRun n (strL "ATGTARTGA") = none := by
  induction n with
  | zero => rfl
  | succ m ih =>
      rw [repairRun, repairStep_tar_fixpoint]
      exact ih

/-- Python list.pop(i) for a non-negative index: the element at i together
with the list with that element removed; none models an IndexError. -/
def popAt {α : Type} (l : List α) (i : Nat) : Option (α × List α) :=
  match l[i]? with
  | none => none
  | some a => some (a, l.take i ++ l.drop (i + 1))

/-- The loop of SeqBuddy.shuffle: iteration count fixed to the initial
record count, each step popping index randint(1, current length) - 1 from
the remaining records and appending it to the output.  draws gives the
randint result of each step. -/
def shuffleLoop {α : Type} (draws : Nat → Nat) :
    Nat → Nat → List α → List α → Option (List α)
  | 0, _, _, out => some out
  | k + 1, step, remaining, out =>
      match popAt remaining (draws step - 1) with
      | none => none
      | some (a, rest) => shuffleLoop draws k (step + 1) rest (out ++ [a])

/-- SeqBuddy.shuffle on an arbitrary record list, parameterised by the
sequence of randint(1, len) draws. -/
def shuffle {α : Type} (draws : Nat → Nat) (recs : List α) : Option (List α) :=
  shuffleLoop draws recs.length 0 recs []

lemma shuffleLoop_perm {α : Type} (draws : Nat → Nat) :
    ∀ (m step : Nat) (remaining out : List α),
      remaining.length = m →
      (∀ k, k < m → 1 ≤ draws (step + k) ∧ draws (step + k) ≤ m - k) →
      ∃ res, shuffleLoop draws m step remaining out = some res ∧ res.Perm (out ++ remaining) := by
  intro m
  induction m with
  | zero =>
      intro step remaining out hlen _
      have hnil : remaining = [] := List.eq_nil_of_length_eq_zero hlen
      subst hnil
      exact ⟨out, rfl, by simp⟩
  | succ m ih =>
      intro step remaining out hlen hdraw
      have hd0 := hdraw 0 (Nat.succ_pos m)
      simp only [Nat.add_zero] at hd0
      have hi : draws step - 1 < remaining.length := by omega
      have hget : remaining[draws step - 1]? = some remaining[draws step - 1] :=
        List.getElem?_eq_getElem hi
      have hpop : popAt remaining (draws step - 1)
          = some (remaining[draws step - 1],
              remaining.take (draws step - 1) ++ remaining.drop (draws step - 1 + 1)) := by
        rw [popAt, hget]
      have hrestlen :
          (remaining.take (draws step - 1) ++ remaining.drop (draws step - 1 + 1)).length = m := by
        simp only [List.length_append, List.length_take, List.length_drop]
        omega
      have hdraw2 : ∀ k, k < m →
          1 ≤ draws (step + 1 + k) ∧ draws (step + 1 + k) ≤ m - k := by
        intro k hk
        have he : step + (k + 1) = step + 1 + k := by omega
        have := hdraw (k + 1) (by omega)
        rw [he] at this
        omega
      obtain ⟨res, hres, hperm⟩ := ih (step + 1)
        (remaining.take (draws step - 1) ++ remaining.drop (draws step - 1 + 1))
        (out ++ [remaining[draws step - 1]]) hrestlen hdraw2
      refine ⟨res, ?_, ?_⟩
      · rw [shuffleLoop, hpop]
        exact hres
      · refine hperm.trans ?_
        have hsplit : remaining
            = remaining.take (draws step - 1)
              ++ remaining[draws step - 1] :: remaining.drop (draws step - 1 + 1) := by
          conv_lhs => rw [← List.take_append_drop (draws step - 1) remaining]
          rw [List.drop_eq_getElem_cons hi]
        conv_rhs => rw [hsplit]
        rw [List.append_assoc]
        refine List.Perm.append_left out ?_
        rw [List.singleton_append]
        exact List.perm_middle.symm

/-- C9: for every record list and every sequence of randint draws within
randint's contract (each draw between 1 and the current remaining length),
shuffle performs no out-of-bounds pop and returns exactly a permutation of
the input records — none lost, none duplicated. -/
theorem shuffle_is_permutation {α : Type} (draws : Nat → Nat) (recs : List α)
    (h : ∀ k, k < recs.length → 1 ≤ draws k ∧ draws k ≤ recs.length - k) :
    ∃ out, shuffle draws recs = some out ∧ out.Perm recs := by
  obtain ⟨res, h1, h2⟩ := shuffleLoop_perm draws recs.length 0 recs [] rfl
    (by intro k hk; simpa using h k hk)
  exact ⟨res, h1, by simpa using h2⟩

/-- Witness for shuffle_is_permutation on a three-record list with every
draw equal to 1. -/
theorem shuffle_is_permutation_witness :
    ∃ out, shuffle (fun _ => 1) [0, 1, 2] = some out ∧ out.Perm [0, 1, 2] :=
  shuffle_is_permutation (fun _ => 1) [0, 1, 2] (by decide)

/-- Python seq[:amount] for a non-negative amount. -/
def pullFront (amount : Nat) (s : List Char) : List Char := s.take amount

/-- Python seq[-amount:] for a non-negative amount: -0 is 0, so amount = 0
keeps the whole string; otherwise the slice starts at max(len - amount, 0). -/
def pullRear (amount : Nat) (s : List Char) : List Char :=
  if amount = 0 then s else s.drop (s.length - amount)

/-- SeqBuddy.pull_seq_ends.  The AttributeError for an invalid _which_end
is raised inside the per-record loop, so an empty collection falls through
the loop and is returned untouched. -/
def pull_seq_ends (sb : SeqBuddy) (amount : Nat) (whichEnd : String) : Except PyError SeqBuddy :=
  if whichEnd = "front" then
    .ok { sb with records := sb.records.map (fun r => { r with seq := pullFront amount r.seq }) }
  else if whichEnd = "rear" then
    .ok { sb with records := sb.records.map (fun r => { r with seq := pullRear amount r.seq }) }
  else if sb.records = [] then .ok sb
  else .error .attributeError

/-- C10 (counterexample): on a collection with no records, an invalid
_which_end value does not raise an AttributeError — the raise sits inside
the loop over records, so the collection is returned unchanged. -/
theorem pull_seq_ends_no_error_on_empty :
    pull_seq_ends ⟨.dna, []⟩ 0 "middle" = .ok ⟨.dna, []⟩ ∧
      pull_seq_ends ⟨.dna, []⟩ 0 "middle" ≠ .error .attributeError := by
  refine ⟨rfl, ?_⟩
  intro hcontra
  rw [show pull_seq_ends ⟨.dna, []⟩ 0 "middle" = .ok ⟨.dna, []⟩ from rfl] at hcontra
  exact Except.noConfusion hcontra

/-- C10 (amended): pull_seq_ends with _amount = 0 is asymmetric — 'front'
empties every record's sequence while 'rear' returns every sequence
unchanged (the slice [-0:] is the whole string); any other _which_end
raises an AttributeError provided the collection has at least one record
(an empty collection is returned unchanged); and an _amount larger than a
record's length keeps that record's whole sequence in both modes. -/
theorem pull_seq_ends_spec (sb : SeqBuddy) (amount : Nat) (whichEnd : String) :
    (pull_seq_ends sb 0 "front"
        = .ok { sb with records := sb.records.map (fun r => { r with seq := [] }) }) ∧
    pull_seq_ends sb 0 "rear" = .ok sb ∧
    (whichEnd ≠ "front" → whichEnd ≠ "rear" → sb.records ≠ [] →
      pull_seq_ends sb amount whichEnd = .error .attributeError) ∧
    (∀ r ∈ sb.records, r.seq.length < amount →
      pullFront amount r.seq = r.seq ∧ pullRear amount r.seq = r.seq) := by
  refine ⟨?_, ?_, ?_, ?_⟩
  · rw [pull_seq_ends, if_pos rfl]
    simp [pullFront]
  · rw [pull_seq_ends, if_neg (by decide), if_pos rfl]
    simp [pullRear]
  · intro h1 h2 h3
    rw [pull_seq_ends, if_neg h1, if_neg h2, if_neg h3]
  · intro r _ hlt
    constructor
    · exact List.take_of_length_le (le_of_lt hlt)
    · rw [pullRear, if_neg (by omega)]
      rw [show r.seq.length - amount = 0 from by omega]
      exact List.drop_zero r.seq

/-- Witness for pull_seq_ends_spec on a one-record DNA collection with an
invalid _which_end and an amount exceeding the record length. -/
theorem pull_seq_ends_spec_witness :
    pull_seq_ends ⟨.dna, [⟨"r", strL "ACG", []⟩]⟩ 5 "middle" = .error .attributeError ∧
      pullFront 5 (strL "ACG") = strL "ACG" ∧ pullRear 5 (strL "ACG") = strL "ACG" :=
  ⟨(pull_seq_ends_spec ⟨.dna, [⟨"r", strL "ACG", []⟩]⟩ 5 "middle").2.2.1
      (by decide) (by decide) (by decide),
   (pull_seq_ends_spec ⟨.dna, [⟨"r", strL "ACG", []⟩]⟩ 5 "middle").2.2.2
      ⟨"r", strL "ACG", []⟩ (List.mem_singleton.mpr rfl) (by decide)⟩

/-- Codon-preference table of Homo sapiens as hard-coded in back_translate
(float frequencies as exact rationals).  Residues outside the table raise
a KeyError in Python; they are modelled by the empty entry. -/
def h_sapi : Char → List (List Char) × List ℚ
  | 'A' => (["GCT", "GCC", "GCA", "GCG"].map strL, [27/100, 40/100, 23/100, 11/100])
  | 'C' => (["TGT", "TGC"].map strL, [46/100, 54/100])
  | 'D' => (["GAT", "GAC"].map strL, [46/100, 54/100])
  | 'E' => (["GAA", "GAG"].map strL, [42/100, 58/100])
  | 'F' => (["TTT", "TTC"].map strL, [46/100, 54/100])
  | 'G' => (["GGT", "GGC", "GGA", "GGG"].map strL, [16/100, 34/100, 25/100, 25/100])
  | 'H' => (["CAT", "CAC"].map strL, [42/100, 58/100])
  | 'I' => (["ATT", "ATC", "ATA"].map strL, [36/100, 47/100, 17/100])
  | 'K' => (["AAA", "AAG"].map strL, [43/100, 57/100])
  | 'L' => (["TTA", "TTG", "CTT", "CTC", "CTA", "CTG"].map strL,
            [8/100, 13/100, 13/100, 20/100, 7/100, 40/100])
  | 'M' => (["ATG"].map strL, [1])
  | 'N' => (["AAT", "AAC"].map strL, [47/100, 53/100])
  | 'P' => (["CCT", "CCC", "CCA", "CCG"].map strL, [29/100, 32/100, 28/100, 11/100])
  | 'Q' => (["CAA", "CAG"].map strL, [27/100, 73/100])
  | 'R' => (["CGT", "CGC", "CGA", "CGG", "AGA", "AGG"].map strL,
            [8/100, 18/100, 11/100, 20/100, 21/100, 21/100])
  | 'S' => (["TCT", "TCC", "TCA", "TCG", "AGT", "AGC"].map strL,
            [19/100, 22/100, 15/100, 5/100, 15/100, 24/100])
  | '*' => (["TAA", "TGA", "TAG"].map strL, [30/100, 47/100, 24/100])
  | 'T' => (["ACT", "ACC", "ACA", "ACG"].map strL, [25/100, 36/100, 28/100, 11/100])
  | 'V' => (["GTT", "GTC", "GTA", "GTG"].map strL, [18/100, 24/100, 12/100, 46/100])
  | 'W' => (["TGG"].map strL, [1])
  | 'Y' => (["TAT", "TAC"].map strL, [44/100, 56/100])
  | 'X' => (["NNN"].map strL, [1])
  | _ => ([], [])

/-- Codon-preference table of Mus musculus as hard-coded in back_translate. -/
def m_muscul : Char → List (List Char) × List ℚ
  | 'A' => (["GCT", "GCC", "GCA", "GCG"].map strL, [29/100, 38/100, 23/100, 9/100])
  | 'C' => (["TGT", "TGC"].map strL, [48/100, 52/100])
  | 'D' => (["GAT", "GAC"].map strL, [45/100, 55/100])
  | 'E' => (["GAA", "GAG"].map strL, [41/100, 59/100])
  | 'F' => (["TTT", "TTC"].map strL, [44/100, 56/100])
  | 'G' => (["GGT", "GGC", "GGA", "GGG"].map strL, [18/100, 33/100, 26/100, 23/100])
  | 'H' => (["CAT", "CAC"].map strL, [41/100, 59/100])
  | 'I' => (["ATT", "ATC", "ATA"].map strL, [34/100, 50/100, 16/100])
  | 'K' => (["AAA", "AAG"].map strL, [39/100, 61/100])
  | 'L' => (["TTA", "TTG", "CTT", "CTC", "CTA", "CTG"].map strL,
            [7/100, 13/100, 13/100, 20/100, 8/100, 39/100])
  | 'M' => (["ATG"].map strL, [1])
  | 'N' => (["AAT", "AAC"].map strL, [43/100, 57/100])
  | 'P' => (["CCT", "CCC", "CCA", "CCG"].map strL, [31/100, 30/100, 29/100, 10/100])
  | 'Q' => (["CAA", "CAG"].map strL, [26/100, 74/100])
  | 'R' => (["CGT", "CGC", "CGA", "CGG", "AGA", "AGG"].map strL,
            [8/100, 17/100, 12/100, 19/100, 22/100, 22/100])
  | 'S' => (["TCT", "TCC", "TCA", "TCG", "AGT", "AGC"].map strL,
            [20/100, 22/100, 14/100, 5/100, 15/100, 24/100])
  | '*' => (["TAA", "TGA", "TAG"].map strL, [28/100, 49/100, 23/100])
  | 'T' => (["ACT", "ACC", "ACA", "ACG"].map strL, [25/100, 35/100, 29/100, 10/100])
  | 'V' => (["GTT", "GTC", "GTA", "GTG"].map strL, [17/100, 25/100, 12/100, 46/100])
  | 'W' => (["TGG"].map strL, [1])
  | 'Y' => (["TAT", "TAC"].map strL, [43/100, 57/100])
  | 'X' => (["NNN"].map strL, [1])
  | _ => ([], [])

/-- Codon-preference table of Escherichia coli as hard-coded in
back_translate. -/
def e_coli : Char → List (List Char) × List ℚ
  | 'A' => (["GCT", "GCC", "GCA", "GCG"].map strL, [16/100, 27/100, 22/100, 35/100])
  | 'C' => (["TGT", "TGC"].map strL, [45/100, 55/100])
  | 'D' => (["GAT", "GAC"].map strL, [63/100, 37/100])
  | 'E' => (["GAA", "GAG"].map strL, [68/100, 32/100])
  | 'F' => (["TTT", "TTC"].map strL, [58/100, 42/100])
  | 'G' => (["GGT", "GGC", "GGA", "GGG"].map strL, [33/100, 39/100, 12/100, 16/100])
  | 'H' => (["CAT", "CAC"].map strL, [58/100, 42/100])
  | 'I' => (["ATT", "ATC", "ATA"].map strL, [50/100, 40/100, 9/100])
  | 'K' => (["AAA", "AAG"].map strL, [76/100, 24/100])
  | 'L' => (["TTA", "TTG", "CTT", "CTC", "CTA", "CTG"].map strL,
            [13/100, 13/100, 11/100, 10/100, 4/100, 49/100])
  | 'M' => (["ATG"].map strL, [1])
  | 'N' => (["AAT", "AAC"].map strL, [47/100, 53/100])
  | 'P' => (["CCT", "CCC", "CCA", "CCG"].map strL, [17/100, 13/100, 19/100, 51/100])
  | 'Q' => (["CAA", "CAG"].map strL, [33/100, 67/100])
  | 'R' => (["CGT", "CGC", "CGA", "CGG", "AGA", "AGG"].map strL,
            [36/100, 37/100, 7/100, 11/100, 5/100, 3/100])
  | 'S' => (["TCT", "TCC", "TCA", "TCG", "AGT", "AGC"].map strL,
            [14/100, 15/100, 14/100, 15/100, 16/100, 27/100])
  | '*' => (["TAA", "TGA", "TAG"].map strL, [59/100, 33/100, 8/100])
  | 'T' => (["ACT", "ACC", "ACA", "ACG"].map strL, [17/100, 41/100, 15/100, 27/100])
  | 'V' => (["GTT", "GTC", "GTA", "GTG"].map strL, [26/100, 21/100, 16/100, 37/100])
  | 'W' => (["TGG"].map strL, [1])
  | 'Y' => (["TAT", "TAC"].map strL, [57/100, 43/100])
  | 'X' => (["NNN"].map strL, [1])
  | _ => ([], [])

/-- Codon-preference table of Saccharomyces cerevisiae as hard-coded in
back_translate. -/
def s_cerev : Char → List (List Char) × List ℚ
  | 'A' => (["GCT", "GCC", "GCA", "GCG"].map strL, [38/100, 22/100, 29/100, 11/100])
  | 'C' => (["TGT", "TGC"].map strL, [63/100, 37/100])
  | 'D' => (["GAT", "GAC"].map strL, [65/100, 35/100])
  | 'E' => (["GAA", "GAG"].map strL, [70/100, 30/100])
  | 'F' => (["TTT", "TTC"].map strL, [59/100, 41/100])
  | 'G' => (["GGT", "GGC", "GGA", "GGG"].map strL, [47/100, 19/100, 22/100, 12/100])
  | 'H' => (["CAT", "CAC"].map strL, [64/100, 36/100])
  | 'I' => (["ATT", "ATC", "ATA"].map strL, [46/100, 26/100, 27/100])
  | 'K' => (["AAA", "AAG"].map strL, [58/100, 42/100])
  | 'L' => (["TTA", "TTG", "CTT", "CTC", "CTA", "CTG"].map strL,
            [28/100, 29/100, 13/100, 6/100, 14/100, 11/100])
  | 'M' => (["ATG"].map strL, [1])
  | 'N' => (["AAT", "AAC"].map strL, [59/100, 41/100])
  | 'P' => (["CCT", "CCC", "CCA", "CCG"].map strL, [31/100, 15/100, 42/100, 12/100])
  | 'Q' => (["CAA", "CAG"].map strL, [69/100, 31/100])
  | 'R' => (["CGT", "CGC", "CGA", "CGG", "AGA", "AGG"].map strL,
            [14/100, 6/100, 7/100, 4/100, 48/100, 21/100])
  | 'S' => (["TCT", "TCC", "TCA", "TCG", "AGT", "AGC"].map strL,
            [26/100, 16/100, 21/100, 10/100, 16/100, 11/100])
  | '*' => (["TAA", "TGA", "TAG"].map strL, [47/100, 30/100, 23/100])
  | 'T' => (["ACT", "ACC", "ACA", "ACG"].map strL, [35/100, 22/100, 30/100, 14/100])
  | 'V' => (["GTT", "GTC", "GTA", "GTG"].map strL, [39/100, 21/100, 21/100, 19/100])
  | 'W' => (["TGG"].map strL, [1])
  | 'Y' => (["TAT", "TAC"].map strL, [56/100, 44/100])
  | 'X' => (["NNN"].map strL, [1])
  | _ => ([], [])

/-- The uniform table used when no species is given. -/
def rand_table : Char → List (List Char) × List ℚ
  | 'A' => (["GCT", "GCC", "GCA", "GCG"].map strL, [25/100, 25/100, 25/100, 25/100])
  | 'C' => (["TGT", "TGC"].map strL, [5/10, 5/10])
  | 'D' => (["GAT", "GAC"].map strL, [5/10, 5/10])
  | 'E' => (["GAA", "GAG"].map strL, [5/10, 5/10])
  | 'F' => (["TTT", "TTC"].map strL, [5/10, 5/10])
  | 'G' => (["GGT", "GGC", "GGA", "GGG"].map strL, [25/100, 25/100, 25/100, 25/100])
  | 'H' => (["CAT", "CAC"].map strL, [5/10, 5/10])
  | 'I' => (["ATT", "ATC", "ATA"].map strL, [3333/10000, 3333/10000, 3334/10000])
  | 'K' => (["AAA", "AAG"].map strL, [5/10, 5/10])
  | 'L' => (["TTA", "TTG", "CTT", "CTC", "CTA", "CTG"].map strL,
            [167/1000, 167/1000, 167/1000, 167/1000, 166/1000, 166/1000])
  | 'M' => (["ATG"].map strL, [1])
  | 'N' => (["AAT", "AAC"].map strL, [5/10, 5/10])
  | 'P' => (["CCT", "CCC", "CCA", "CCG"].map strL, [25/100, 25/100, 25/100, 25/100])
  | 'Q' => (["CAA", "CAG"].map strL, [5/10, 5/10])
  | 'R' => (["CGT", "CGC", "CGA", "CGG", "AGA", "AGG"].map strL,
            [167/1000, 167/1000, 167/1000, 167/1000, 166/1000, 166/1000])
  | 'S' => (["TCT", "TCC", "TCA", "TCG", "AGT", "AGC"].map strL,
            [167/1000, 167/1000, 167/1000, 167/1000, 166/1000, 166/1000])
  | '*' => (["TAA", "TGA", "TAG"].map strL, [3333/10000, 3333/10000, 3334/10000])
  | 'T' => (["ACT", "ACC", "ACA", "ACG"].map strL, [25/100, 25/100, 25/100, 25/100])
  | 'V' => (["GTT", "GTC", "GTA", "GTG"].map strL, [25/100, 25/100, 25/100, 25/100])
  | 'W' => (["TGG"].map strL, [1])
  | 'Y' => (["TAT", "TAC"].map strL, [5/10, 5/10])
  | 'X' => (["NNN"].map strL, [1])
  | _ => ([], [])

/-- Running best of the optimized-mode scan: best starts at ("", 0.) and
is replaced whenever a strictly larger frequency is seen, so the earliest
maximal-frequency codon wins (codon and frequency lists are paired as the
source indexes them in lockstep). -/
def bestLoop : List (List Char × ℚ) → List Char × ℚ → List Char × ℚ
  | [], b => b
  | (c, f) :: rest, b => bestLoop rest (if b.2 < f then (c, f) else b)

/-- Optimized-mode rewrite of one table entry: the single best codon with
frequency 1.0. -/
def optimizeEntry (e : List (List Char) × List ℚ) : List (List Char) × List ℚ :=
  let b := bestLoop (e.1.zip e.2) ([], 0)
  ([b.1], [1])

/-- Optimized-mode rewrite of the whole lookup table. -/
def optimizeTable (tbl : Char → List (List Char) × List ℚ) :
    Char → List (List Char) × List ℚ :=
  fun aa => optimizeEntry (tbl aa)

/-- The per-residue draw of back_translate: accumulate frequencies until
the running sum reaches the random number, returning that codon; none
models the fall-through case where no codon is appended. -/
def drawOne : List (List Char × ℚ) → ℚ → ℚ → Option (List Char)
  | [], _, _ => none
  | (c, f) :: rest, acc, r => if r ≤ acc + f then some c else drawOne rest (acc + f) r

/-- The nucleotide string back_translate builds for one record: one draw
per residue, each consuming one random number. -/
def backTranslateSeq (tbl : Char → List (List Char) × List ℚ) (rand : Nat → ℚ) :
    List Char → Nat → List Char
  | [], _ => []
  | aa :: rest, n =>
      (match drawOne ((tbl aa).1.zip (tbl aa).2) 0 (rand n) with
       | some c => c
       | none => []) ++ backTranslateSeq tbl rand rest (n + 1)

/-- The record loop of back_translate: features are cleared and each
record's residues are replaced by the drawn nucleotide string, threading
the random-number counter across records. -/
def btRecords (tbl : Char → List (List Char) × List ℚ) (rand : Nat → ℚ) :
    List SRecord → Nat → List SRecord
  | [], _ => []
  | r :: rest, n =>
      { r with features := [], seq := backTranslateSeq tbl rand r.seq n }
        :: btRecords tbl rand rest (n + r.seq.length)

/-- Python str.upper on a whole string (character-wise upper-casing). -/
def pyUpper (s : String) : String := ⟨s.data.map Char.toUpper⟩

/-- Mode strings accepted by back_translate (after upper-casing). -/
def validModes : List String := ["RANDOM", "R", "OPTIMIZED", "O"]

/-- Species-table dispatch of back_translate: no species gives the uniform
table; unknown species raise AttributeError (none). -/
def speciesTable : Option String → Option (Char → List (List Char) × List ℚ)
  | none => some rand_table
  | some sp =>
      if pyUpper sp = "HUMAN" ∨ pyUpper sp = "H" then some h_sapi
      else if pyUpper sp = "MOUSE" ∨ pyUpper sp = "M" then some m_muscul
      else if pyUpper sp = "ECOLI" ∨ pyUpper sp = "E" then some e_coli
      else if pyUpper sp = "YEAST" ∨ pyUpper sp = "Y" then some s_cerev
      else none

/-- Table actually used by back_translate: the optimized rewrite when the
mode is optimized, the chosen species table otherwise. -/
def backTransTable (mode : String) (tbl0 : Char → List (List Char) × List ℚ) :
    Char → List (List Char) × List ℚ :=
  if pyUpper mode = "OPTIMIZED" ∨ pyUpper mode = "O" then optimizeTable tbl0 else tbl0

/-- SeqBuddy.back_translate: an invalid mode raises AttributeError, a
non-protein alphabet raises AttributeError, an unknown species raises
AttributeError; otherwise the table (rewritten in optimized mode) drives
one codon draw per residue.  The subsequent feature remapping through
map_features_prot2dna is modelled separately by map_features_prot2dna_loc. -/
def back_translate (sb : SeqBuddy) (mode : String) (species : Option String)
    (rand : Nat → ℚ) : Except PyError SeqBuddy :=
  if pyUpper mode ∉ validModes then .error .attributeError
  else if sb.alpha ≠ .protein then .error .attributeError
  else
    match speciesTable species with
    | none => .error .attributeError
    | some tbl0 =>
        .ok { sb with records := btRecords (backTransTable mode tbl0) rand sb.records 0 }

lemma bestLoop_ge (l : List (List Char × ℚ)) (b : List Char × ℚ) :
    b.2 ≤ (bestLoop l b).2 ∧ ∀ p ∈ l, p.2 ≤ (bestLoop l b).2 := by
  induction l generalizing b with
  | nil => exact ⟨le_refl _, by simp⟩
  | cons q rest ih =>
      obtain ⟨c, f⟩ := q
      simp only [bestLoop]
      have hstep : b.2 ≤ (if b.2 < f then (c, f) else b).2 := by
        split
        · exact le_of_lt (by assumption)
        · exact le_refl _
      have hstepf : f ≤ (if b.2 < f then (c, f) else b).2 := by
        split
        · exact le_refl _
        · exact le_of_not_lt (by assumption)
      obtain ⟨h1, h2⟩ := ih (if b.2 < f then (c, f) else b)
      refine ⟨le_trans hstep h1, ?_⟩
      intro p hp
      rcases List.mem_cons.mp hp with rfl | hp2
      · exact le_trans hstepf h1
      · exact h2 p hp2

lemma bestLoop_mem (l : List (List Char × ℚ)) (b : List Char × ℚ) :
    bestLoop l b = b ∨ bestLoop l b ∈ l := by
  induction l generalizing b with
  | nil => left; rfl
  | cons q rest ih =>
      obtain ⟨c, f⟩ := q
      simp only [bestLoop]
      rcases ih (if b.2 < f then (c, f) else b) with h | h
      · rw [h]
        split
        · right
          exact List.mem_cons_self _ _
        · left
          rfl
      · right
        exact List.mem_cons_of_mem _ h

lemma drawOne_optimized (e : List (List Char) × List ℚ) (r : ℚ) (hr : r ≤ 1) :
    drawOne ((optimizeEntry e).1.zip (optimizeEntry e).2) 0 r
      = some (bestLoop (e.1.zip e.2) ([], 0)).1 := by
  show drawOne [((bestLoop (e.1.zip e.2) ([], 0)).1, 1)] 0 r = _
  simp only [drawOne]
  rw [if_pos (by linarith)]

lemma backTranslateSeq_optimized (tbl0 : Char → List (List Char) × List ℚ)
    (rnd : Nat → ℚ) (hrnd : ∀ n, rnd n ≤ 1) :
    ∀ (seq : List Char) (n : Nat),
      backTranslateSeq (optimizeTable tbl0) rnd seq n
        = (seq.map (fun aa => (bestLoop ((tbl0 aa).1.zip (tbl0 aa).2) ([], 0)).1)).flatten := by
  intro seq
  induction seq with
  | nil => intro n; rfl
  | cons aa rest ih =>
      intro n
      simp only [backTranslateSeq]
      rw [show optimizeTable tbl0 aa = optimizeEntry (tbl0 aa) from rfl,
          drawOne_optimized (tbl0 aa) (rnd n) (hrnd n), ih (n + 1)]
      simp only [List.map_cons, List.flatten_cons]

lemma btRecords_optimized (tbl0 : Char → List (List Char) × List ℚ)
    (rnd : Nat → ℚ) (hrnd : ∀ n, rnd n ≤ 1) :
    ∀ (recs : List SRecord) (n : Nat),
      btRecords (optimizeTable tbl0) rnd recs n
        = recs.map (fun r =>
            { r with features := [],
                     seq := (r.seq.map
                       (fun aa => (bestLoop ((tbl0 aa).1.zip (tbl0 aa).2) ([], 0)).1)).flatten }) := by
  intro recs
  induction recs with
  | nil => intro n; rfl
  | cons r rest ih =>
      intro n
      simp only [btRecords, List.map_cons]
      rw [backTranslateSeq_optimized tbl0 rnd hrnd r.seq n, ih (n + r.seq.length)]

/-- C6: back_translate in optimized mode on a protein collection is
deterministic — whatever the random draws (each in [0, 1)), every residue
is encoded by the earliest codon of maximal frequency in the species
table, so two runs on the same input produce the same nucleotide
sequence; that codon's frequency bounds every frequency in the entry, and
when it is positive the chosen (codon, frequency) pair is an entry of the
table. -/
theorem back_translate_optimized_deterministic
    (sb : SeqBuddy) (mode : String) (species : Option String)
    (tbl0 : Char → List (List Char) × List ℚ) (rand rand2 : Nat → ℚ)
    (halpha : sb.alpha = .protein)
    (hmode : pyUpper mode = "OPTIMIZED" ∨ pyUpper mode = "O")
    (hsp : speciesTable species = some tbl0)
    (h1 : ∀ n, rand n ≤ 1) (h2 : ∀ n, rand2 n ≤ 1) :
    back_translate sb mode species rand
        = .ok { sb with records := sb.records.map (fun r =>
            { r with features := [],
                     seq := (r.seq.map
                       (fun aa => (bestLoop ((tbl0 aa).1.zip (tbl0 aa).2) ([], 0)).1)).flatten }) } ∧
    back_translate sb mode species rand = back_translate sb mode species rand2 ∧
    (∀ aa : Char, ∀ p ∈ (tbl0 aa).1.zip (tbl0 aa).2,
      p.2 ≤ (bestLoop ((tbl0 aa).1.zip (tbl0 aa).2) ([], 0)).2) ∧
    (∀ aa : Char, 0 < (bestLoop ((tbl0 aa).1.zip (tbl0 aa).2) ([], 0)).2 →
      bestLoop ((tbl0 aa).1.zip (tbl0 aa).2) ([], 0) ∈ (tbl0 aa).1.zip (tbl0 aa).2) := by
  have hv : pyUpper mode ∈ validModes := by
    rcases hmode with h | h <;> rw [h] <;> decide
  have hbt : ∀ rnd : Nat → ℚ, (∀ n, rnd n ≤ 1) →
      back_translate sb mode species rnd
        = .ok { sb with records := sb.records.map (fun r =>
            { r with features := [],
                     seq := (r.seq.map
                       (fun aa => (bestLoop ((tbl0 aa).1.zip (tbl0 aa).2) ([], 0)).1)).flatten }) } := by
    intro rnd hrnd
    rw [back_translate, if_neg (not_not_intro hv), if_neg (not_not_intro halpha), hsp]
    show Except.ok
        { sb with records := btRecords (backTransTable mode tbl0) rnd sb.records 0 } = _
    rw [show backTransTable mode tbl0 = optimizeTable tbl0 from by
          rw [backTransTable, if_pos hmode]]
    rw [btRecords_optimized tbl0 rnd hrnd sb.records 0]
  refine ⟨hbt rand h1, (hbt rand h1).trans (hbt rand2 h2).symm, ?_, ?_⟩
  · intro aa p hp
    exact (bestLoop_ge ((tbl0 aa).1.zip (tbl0 aa).2) ([], 0)).2 p hp
  · intro aa hpos
    rcases bestLoop_mem ((tbl0 aa).1.zip (tbl0 aa).2) ([], 0) with h | h
    · rw [h] at hpos
      exact absurd hpos (by norm_num)
    · exact h

/-- Witness for back_translate_optimized_deterministic: two runs with
different draw sequences on the same protein record and the human table
give the same result. -/
theorem back_translate_optimized_deterministic_witness :
    back_translate ⟨.protein, [⟨"r", strL "MR", []⟩]⟩ "o" (some "human") (fun _ => 0)
      = back_translate ⟨.protein, [⟨"r", strL "MR", []⟩]⟩ "o" (some "human")
          (fun _ => (1 : ℚ) / 2) :=
  (back_translate_optimized_deterministic ⟨.protein, [⟨"r", strL "MR", []⟩]⟩ "o"
      (some "human") h_sapi (fun _ => 0) (fun _ => (1 : ℚ) / 2) rfl
      (Or.inr (by decide)) rfl
      (fun _ => by norm_num) (fun _ => by norm_num)).2.1

/-- C8 (counterexample): back_translate on a nucleotide collection raises
an AttributeError, not the TypeError the claim asserts. -/
theorem back_translate_error_kind :
    back_translate ⟨.dna, []⟩ "optimized" none (fun _ => 0) = .error .attributeError ∧
      back_translate ⟨.dna, []⟩ "optimized" none (fun _ => 0) ≠ .error .typeError := by
  have he : back_translate ⟨.dna, []⟩ "optimized" none (fun _ => 0)
      = .error .attributeError := by
    rw [back_translate, if_neg (not_not_intro (by decide)), if_pos (by decide)]
  refine ⟨he, ?_⟩
  rw [he]
  intro hcontra
  exact PyError.noConfusion (Except.error.inj hcontra)

/-- C8 (amended): on a protein collection, complement, reverse_complement
and select_frame all raise a TypeError before touching any record, and
back_translate applied to a non-protein collection (with a valid mode)
raises an AttributeError. -/
theorem alphabet_mismatch_errors
    (sb sb2 : SeqBuddy) (frame : Nat) (mode : String) (species : Option String)
    (rand : Nat → ℚ)
    (hp : sb.alpha = .protein) (hnp : sb2.alpha ≠ .protein)
    (hm : pyUpper mode ∈ validModes) :
    complement sb = .error .typeError ∧
    reverse_complement sb = .error .typeError ∧
    select_frame sb frame = .error .typeError ∧
    back_translate sb2 mode species rand = .error .attributeError := by
  refine ⟨?_, ?_, ?_, ?_⟩
  · rw [complement, if_pos hp]
  · rw [reverse_complement, if_pos hp]
  · rw [select_frame, if_pos hp]
  · rw [back_translate, if_neg (not_not_intro hm), if_pos hnp]

/-- Witness for alphabet_mismatch_errors on concrete protein and DNA
collections. -/
theorem alphabet_mismatch_errors_witness :
    complement ⟨.protein, []⟩ = .error .typeError ∧
    reverse_complement ⟨.protein, []⟩ = .error .typeError ∧
    select_frame ⟨.protein, []⟩ 2 = .error .typeError ∧
    back_translate ⟨.dna, []⟩ "random" none (fun _ => 0) = .error .attributeError :=
  alphabet_mismatch_errors ⟨.protein, []⟩ ⟨.dna, []⟩ 2 "random" none (fun _ => 0)
    rfl (by decide) (by decide)
